import Mathlib

/-!
Shallow embedding of `src/lib/redux/src/handler.js` (the resource-handler
class: its default substate, reducer, pure query helpers and the four thunk
action creators), together with theorems settling the frozen claims about it.

JavaScript values that the handler actually stores in the substate are
modelled by a small scalar type `JsVal`; the `posts` member, which the code
initialises to the plain object literal and every other code path treats as
an array, is modelled by `PostsVal`.  Operations that can raise a `TypeError`
at runtime (calling `.filter`, `.find` or `.indexOf` on a value that lacks
the method) return `Except Unit _`, with `Except.error ()` standing for the
thrown `TypeError`.
-/

namespace BrokerTheme

/-- Scalar JavaScript values stored in substate fields and used as archive
keys and post ids. -/
inductive JsVal where
  | undefined
  | null
  | bool (b : Bool)
  | num (n : Int)
  | str (s : String)
deriving DecidableEq, Repr

/-- JavaScript truthiness test for the scalars in `JsVal` (`undefined`,
`null`, `false`, `0` and the empty string are falsy). -/
def jsFalsy : JsVal → Bool
  | .undefined => true
  | .null => true
  | .bool b => !b
  | .num n => n == 0
  | .str s => s == ""

/-- An entity object held in `posts`: its `id` property plus an opaque stand-in
for the rest of its fields (so two entities with the same id can differ). -/
structure Post where
  id : JsVal
  body : Nat
deriving DecidableEq, Repr

/-- The value of the `posts` member of a substate.  The reducer's
`DEFAULT_STATE` initialises it to the empty object literal (`emptyObj`);
every success branch stores an array (`list`); `undefined` covers an absent
member, which the guards `! substate.posts` and `posts || []` test for.
Note that in JavaScript both the empty object and any array are truthy. -/
inductive PostsVal where
  | undefined
  | emptyObj
  | list (ps : List Post)
deriving DecidableEq, Repr

/-- JavaScript truthiness of a `posts` value: only an absent member is falsy;
the empty object literal and every array (even the empty one) are truthy. -/
def PostsVal.truthy : PostsVal → Bool
  | .undefined => false
  | .emptyObj => true
  | .list _ => true

/-- Lookup in a JavaScript object used as a map (the `archives` member of the
substate and of the handler).  `none` models an absent key / `undefined`. -/
def objGet {α : Type} (m : List (JsVal × α)) (k : JsVal) : Option α :=
  (m.find? (fun e => e.1 == k)).map (fun e => e.2)

/-- Key update on a JavaScript object used as a map: the spread
`{ ...m, [k]: v }` binds `k` to `v` and keeps every other key. -/
def objSet {α : Type} (m : List (JsVal × α)) (k : JsVal) (v : α) : List (JsVal × α) :=
  m.filter (fun e => e.1 != k) ++ [(k, v)]

/-- The handler's substate, as produced by `DEFAULT_STATE` and the reducer.
The source object has exactly the five members below; in particular it never
has a `loadingSingle` member (see `loadingSingle`). -/
structure Substate where
  archives : List (JsVal × List JsVal)
  loadingPost : JsVal
  loadingArchive : JsVal
  posts : PostsVal
  saving : JsVal
deriving DecidableEq, Repr

/-- `DEFAULT_STATE` from the source: empty `archives` object, `loadingPost`,
`loadingArchive` and `saving` all `false`, and `posts` initialised to the
empty object literal (not an array). -/
def DEFAULT_STATE : Substate where
  archives := []
  loadingPost := .bool false
  loadingArchive := .bool false
  posts := .emptyObj
  saving := .bool false

/-- The twelve logical actions the reducer switches on, plus `unknown` for
every other action type (the `default` branch).  Payload fields follow the
dispatched object shapes in the source. -/
inductive Action where
  | archiveStart (id : JsVal)
  | archiveSuccess (id : JsVal) (results : List Post)
  | archiveError (id : JsVal)
  | getStart (id : JsVal)
  | getSuccess (id : JsVal) (data : Post)
  | getError (id : JsVal)
  | updateStart (id : JsVal) (data : Post)
  | updateSuccess (id : JsVal) (data : Post)
  | updateError (id : JsVal)
  | createStart (id : JsVal) (data : Post)
  | createSuccess (id : JsVal) (data : Post)
  | createError (id : JsVal)
  | unknown
deriving DecidableEq, Repr

/-- Evaluation of `( posts || [] ).filter( ... )`'s receiver: an absent
`posts` is falsy, so `posts || []` yields the empty array; the empty object
literal is truthy, so it is kept — and calling `.filter` on it throws a
`TypeError`; an array is used as is. -/
def postsForFilter : PostsVal → Except Unit (List Post)
  | .undefined => .ok []
  | .emptyObj => .error ()
  | .list ps => .ok ps

/-- The reducer from the source, branch by branch.  `Except.error ()` models
the `TypeError` thrown when a branch calls `.filter` on the empty object
literal that `DEFAULT_STATE` put in `posts`. -/
def reducer (state : Substate) (action : Action) : Except Unit Substate :=
  match action with
  | .archiveStart id => .ok { state with loadingArchive := id }
  | .archiveSuccess id results => do
      let posts ← postsForFilter state.posts
      let ids := results.map (fun post => post.id)
      let deduplicated := posts.filter (fun post => decide (post.id ∉ ids))
      .ok { state with
        loadingArchive := .bool false
        archives := objSet state.archives id ids
        posts := .list (deduplicated ++ results) }
  | .archiveError _ => .ok { state with loadingArchive := .bool false }
  | .getStart id => .ok { state with loadingPost := id }
  | .getSuccess _ data => do
      let posts ← postsForFilter state.posts
      let existing := posts.filter (fun post => decide (post.id ≠ data.id))
      .ok { state with loadingPost := .bool false, posts := .list (existing ++ [data]) }
  | .getError _ => .ok { state with loadingPost := .bool false }
  | .createStart id _ => .ok { state with saving := id }
  | .updateStart id _ => .ok { state with saving := id }
  | .createSuccess _ data => do
      let posts ← postsForFilter state.posts
      let existing := posts.filter (fun post => decide (post.id ≠ data.id))
      .ok { state with saving := .bool false, posts := .list (existing ++ [data]) }
  | .updateSuccess _ data => do
      let posts ← postsForFilter state.posts
      let existing := posts.filter (fun post => decide (post.id ≠ data.id))
      .ok { state with saving := .bool false, posts := .list (existing ++ [data]) }
  | .createError _ => .ok { state with saving := .bool false }
  | .updateError _ => .ok { state with saving := .bool false }
  | .unknown => .ok state

/-- `isArchiveLoading` from the source: strict equality of `loadingArchive`
with the queried key. -/
def isArchiveLoading (substate : Substate) (id : JsVal) : Bool :=
  substate.loadingArchive == id

/-- `getArchive` from the source: `null` when `posts` is absent or the key
has no stored id list, otherwise the subsequence of the `posts` array whose
ids occur in the stored list.  Calling `.filter` on a non-array `posts`
throws. -/
def getArchive (substate : Substate) (id : JsVal) : Except Unit (Option (List Post)) :=
  if !substate.posts.truthy then .ok none
  else
    match objGet substate.archives id with
    | none => .ok none
    | some ids =>
        match substate.posts with
        | .list ps => .ok (some (ps.filter (fun app => decide (app.id ∈ ids))))
        | _ => .error ()

/-- Reading the `loadingSingle` member of a substate.  No code in the source
ever writes such a member (the reducer writes `loadingPost`), so on every
substate the property access yields `undefined`. -/
def loadingSingle (substate : Substate) : JsVal := .undefined

/-- `isPostLoading` from the source: it compares `substate.loadingSingle`
(not `loadingPost`) with the queried id. -/
def isPostLoading (substate : Substate) (id : JsVal) : Bool :=
  loadingSingle substate == id

/-- `getSingle` from the source: `null` when `posts` is absent, otherwise
`posts.find` on the id.  Calling `.find` on the empty object literal throws. -/
def getSingle (substate : Substate) (id : JsVal) : Except Unit (Option Post) :=
  if !substate.posts.truthy then .ok none
  else
    match substate.posts with
    | .list ps => .ok (ps.find? (fun post => post.id == id))
    | _ => .error ()

/-- `isPostSaving` from the source: strict equality of `saving` with the id. -/
def isPostSaving (substate : Substate) (id : JsVal) : Bool :=
  substate.saving == id

/-- Does a string begin with the temp-ID prefix, i.e. is
`s.indexOf( TMP ) === 0` with `TMP` the five characters underscore, t, m, p,
underscore? -/
def isTmpString (s : String) : Bool :=
  s.data.take 5 == ['_', 't', 'm', 'p', '_']

/-- `isPostCreating` from the source: it calls `saving.indexOf( ... )`.
Strings have `indexOf`; `false` and numbers do not, so on every substate
whose `saving` is not a string the call throws a `TypeError`. -/
def isPostCreating (substate : Substate) : Except Unit Bool :=
  match substate.saving with
  | .str s => .ok (isTmpString s)
  | _ => .error ()

end BrokerTheme

deriving instance DecidableEq for Except

namespace BrokerTheme

/-- The handler instance state relevant to the thunks: the registered
archives object (key to query spec; the spec's content is opaque to the
verified claims, so it is a bare number), the `rethrow` flag and the
`tempId` counter.  The url, default query and fetch options only shape the
HTTP request and are irrelevant to every claim. -/
structure Handler where
  archives : List (JsVal × Nat)
  rethrow : Bool
  tempId : Nat
deriving DecidableEq, Repr

/-- `registerArchive` from the source: stores or replaces the query spec for
the key. -/
def registerArchive (h : Handler) (id : JsVal) (query : Nat) : Handler :=
  { h with archives := objSet h.archives id query }

/-- The value a dispatched thunk hands back to its caller: `undefined` when
the thunk body returns nothing, or a promise that settles (`resolved` with a
value, or `rejected`). -/
inductive Ret where
  | undefined
  | resolved (v : JsVal)
  | rejected
deriving DecidableEq, Repr

/-- The two configuration errors the thunks throw synchronously, before any
dispatch. -/
inductive ConfigError where
  | invalidArchive (id : JsVal)
  | missingId
deriving DecidableEq, Repr

/-- Decimal rendering of a natural number, as JavaScript's number-to-string
coercion produces it in the concatenation that builds a temp id (no sign, no
leading zeros, and the single digit 0 for zero).  The first argument is
structural fuel, always called with at least the number itself. -/
def natDecimalAux : Nat → Nat → List Char
  | _, 0 => []
  | 0, _ + 1 => []
  | fuel + 1, n + 1 => natDecimalAux fuel ((n + 1) / 10) ++ [Nat.digitChar ((n + 1) % 10)]

/-- JavaScript decimal string of a natural number. -/
def natDecimal (n : Nat) : String :=
  if n = 0 then ("0") else ⟨natDecimalAux n n⟩

/-- The temp id built by `createSingle`: the temp prefix concatenated with
the decimal rendering of the counter value. -/
def tempIdString (n : Nat) : String :=
  ("_tmp_") ++ natDecimal n

/-- One run of the `fetchArchive` thunk: the synchronous throw for an
unregistered key (before any dispatch), else the `archiveStart` dispatch and
— once the request settles with `resp` — the `archiveSuccess` or
`archiveError` dispatch.  The source never returns the promise chain
(`this.fetch(...)` is not preceded by `return`), so on every non-throwing
path the thunk's value is `undefined`; the `catch` rethrow only affects the
unreturned, unobservable promise. -/
def fetchArchiveRun (h : Handler) (id : JsVal) (resp : Except Unit (List Post)) :
    List Action × Except ConfigError Ret :=
  if (objGet h.archives id).isNone then
    ([], .error (.invalidArchive id))
  else
    match resp with
    | .ok results => ([.archiveStart id, .archiveSuccess id results], .ok .undefined)
    | .error _ => ([.archiveStart id, .archiveError id], .ok .undefined)

/-- One run of the `updateSingle` thunk: the synchronous throw when the
payload's `id` is falsy (before any dispatch), else `updateStart`, then on
settlement `updateSuccess` (the returned promise resolves with the input id)
or `updateError` (the promise rejects when `rethrow` is set, else the catch
handler swallows the error and the promise resolves with `undefined`). -/
def updateSingleRun (h : Handler) (data : Post) (resp : Except Unit Post) :
    List Action × Except ConfigError Ret :=
  if jsFalsy data.id then
    ([], .error .missingId)
  else
    match resp with
    | .ok respData =>
        ([.updateStart data.id data, .updateSuccess data.id respData], .ok (.resolved data.id))
    | .error _ =>
        ([.updateStart data.id data, .updateError data.id],
          .ok (if h.rethrow then .rejected else .resolved .undefined))

/-- One run of the `createSingle` thunk: allocate the temp id from the
counter and increment the counter, dispatch `createStart` with the temp id,
then on settlement `createSuccess` (the returned promise resolves with the
server-assigned id) or `createError`. -/
def createSingleRun (h : Handler) (data : Post) (resp : Except Unit Post) :
    Handler × List Action × Ret :=
  let id := JsVal.str (tempIdString h.tempId)
  let h' := { h with tempId := h.tempId + 1 }
  match resp with
  | .ok respData =>
      (h', [.createStart id data, .createSuccess id respData], .resolved respData.id)
  | .error _ =>
      (h', [.createStart id data, .createError id],
        if h.rethrow then .rejected else .resolved .undefined)

/-- Is a `JsVal` a temp-prefixed string id? -/
def isTmpVal : JsVal → Bool
  | .str s => isTmpString s
  | _ => false

/-- The numeric value of a decimal digit character. -/
def digitVal (c : Char) : Nat := c.toNat - 48

/-- Decimal parsing of a character list, the inverse of `natDecimalAux`. -/
def parseDec (l : List Char) : Nat := l.foldl (fun acc c => acc * 10 + digitVal c) 0

/-- The ids of an entity list, in order. -/
def postIds (ps : List Post) : List JsVal := ps.map (fun p => p.id)

/-- Side condition on an action: an `archiveSuccess` payload must itself be
free of duplicate ids (servers deliver result sets); every other action
satisfies it trivially. -/
def resultsNodup : Action → Prop
  | .archiveSuccess _ results => (postIds results).Nodup
  | _ => True

/-- The four `*Success` action kinds. -/
def isSuccessAction : Action → Bool
  | .archiveSuccess _ _ => true
  | .getSuccess _ _ => true
  | .createSuccess _ _ => true
  | .updateSuccess _ _ => true
  | _ => false

/-- JavaScript's `toUpperCase` on the basic latin range, applied character by
character (the action-type derivation uppercases the resource-type name). -/
def jsToUpperCase (s : String) : String := ⟨s.data.map Char.toUpper⟩

/-- The twelve action-type strings of a handler. -/
structure ActionTypes where
  archiveStart : String
  archiveSuccess : String
  archiveError : String
  getStart : String
  getSuccess : String
  getError : String
  updateStart : String
  updateSuccess : String
  updateError : String
  createStart : String
  createSuccess : String
  createError : String
deriving DecidableEq, Repr

/-- The four verb tags of the derivation scheme. -/
inductive VerbKind where
  | vquery | vload | vupdate | vcreate
deriving DecidableEq, Repr

/-- The three phases of every operation. -/
inductive PhaseKind where
  | pstart | psuccess | perror
deriving DecidableEq, Repr

/-- The verb tag string: `QUERY_` for archive actions, `LOAD_` for
single-entity gets, `UPDATE_` and `CREATE_` for writes. -/
abbrev verbTag : VerbKind → String
  | .vquery => ("QUERY_")
  | .vload => ("LOAD_")
  | .vupdate => ("UPDATE_")
  | .vcreate => ("CREATE_")

/-- The phase suffix string: `_REQUEST` for the start action, nothing for
the success action, `_ERROR` for the error action. -/
abbrev phaseTag : PhaseKind → String
  | .pstart => ("_REQUEST")
  | .psuccess => ("")
  | .perror => ("_ERROR")

/-- One derived action-type string: the verb tag, then the uppercased
resource-type name, then the phase suffix, concatenated exactly as the
source's template strings do (string concatenation is associative; the
empty suffix of a success tag is explicit so all twelve tags share this
shape).  See `deriveActionTypes_post_strings` for the resulting literals. -/
abbrev mkTag (v : VerbKind) (u : String) (p : PhaseKind) : String :=
  verbTag v ++ (u ++ phaseTag p)

/-- The constructor's derivation of the twelve action-type strings from the
resource-type name, without overrides. -/
def deriveActionTypes (ty : String) : ActionTypes :=
  let upperType := jsToUpperCase ty
  { archiveStart := mkTag .vquery upperType .pstart
    archiveSuccess := mkTag .vquery upperType .psuccess
    archiveError := mkTag .vquery upperType .perror
    getStart := mkTag .vload upperType .pstart
    getSuccess := mkTag .vload upperType .psuccess
    getError := mkTag .vload upperType .perror
    updateStart := mkTag .vupdate upperType .pstart
    updateSuccess := mkTag .vupdate upperType .psuccess
    updateError := mkTag .vupdate upperType .perror
    createStart := mkTag .vcreate upperType .pstart
    createSuccess := mkTag .vcreate upperType .psuccess
    createError := mkTag .vcreate upperType .perror }

/-- All twelve derived action-type strings of a handler, as a list. -/
def actionTypeList (t : ActionTypes) : List String :=
  [t.archiveStart, t.archiveSuccess, t.archiveError,
   t.getStart, t.getSuccess, t.getError,
   t.updateStart, t.updateSuccess, t.updateError,
   t.createStart, t.createSuccess, t.createError]

/-- C1.  The claimed scenario fails on the code: starting from the reducer's
default substate, `archiveStart` for the key `featured` succeeds (and only
sets `loadingArchive`), but the subsequent `archiveSuccess` with results of
ids 1 and 2 throws a `TypeError` instead of storing the archive — because
`DEFAULT_STATE` initialises `posts` to the empty object literal, which is
truthy (so `posts || []` keeps it) and has no `.filter` method. -/
theorem archiveSuccess_from_default_state_throws :
    reducer DEFAULT_STATE (.archiveStart (.str ("featured"))) =
      .ok { DEFAULT_STATE with loadingArchive := .str ("featured") } ∧
    reducer { DEFAULT_STATE with loadingArchive := .str ("featured") }
        (.archiveSuccess (.str ("featured")) [⟨.num 1, 0⟩, ⟨.num 2, 0⟩]) =
      .error () := by
  decide

/-- C2.  The claim fails on the code: after `getStart` with id 5 the reducer
stores 5 in `loadingPost`, yet `isPostLoading` returns `false` for id 5,
because the source compares the never-written `loadingSingle` member (always
`undefined`) instead of `loadingPost`. -/
theorem isPostLoading_reads_never_set_member :
    reducer DEFAULT_STATE (.getStart (.num 5)) =
      .ok { DEFAULT_STATE with loadingPost := .num 5 } ∧
    isPostLoading { DEFAULT_STATE with loadingPost := .num 5 } (.num 5) = false := by
  decide

/-- C3.  The claim fails on the code: on a substate whose `saving` holds a
temp-prefixed string, `isPostCreating` does return `true`; but `createError`
(like `createSuccess`) resets `saving` to `false`, and on the resulting
substate — including `DEFAULT_STATE` itself — `isPostCreating` throws a
`TypeError` (`false` has no `.indexOf` method) instead of returning `false`. -/
theorem isPostCreating_throws_on_nonstring_saving :
    isPostCreating { DEFAULT_STATE with saving := .str ("_tmp_0") } = .ok true ∧
    reducer { DEFAULT_STATE with saving := .str ("_tmp_0") } (.createError (.str ("_tmp_0"))) =
      .ok { DEFAULT_STATE with saving := .bool false } ∧
    isPostCreating { DEFAULT_STATE with saving := .bool false } = .error () ∧
    isPostCreating { DEFAULT_STATE with saving := .num 42 } = .error () := by
  decide

/-- C10.  On the reducer's default substate — whose `posts` member is the
empty object literal, a truthy value that passes the `! substate.posts`
guard but has no `.find` method — `getSingle` throws a `TypeError` for every
id instead of returning a null/not-found result: `getSingle` is partial on
the reducer's own initial state. -/
theorem getSingle_default_state_throws (id : JsVal) :
    getSingle DEFAULT_STATE id = .error () := rfl

/-- C10 witness: looking up id 7 on the default substate throws. -/
theorem getSingle_default_state_throws_witness :
    getSingle DEFAULT_STATE (.num 7) = .error () :=
  getSingle_default_state_throws (.num 7)

theorem digitVal_digitChar (d : Nat) (h : d < 10) : digitVal (Nat.digitChar d) = d := by
  interval_cases d <;> rfl

theorem parseDec_append_digit (l : List Char) (c : Char) :
    parseDec (l ++ [c]) = parseDec l * 10 + digitVal c := by
  simp [parseDec, List.foldl_append]

theorem parseDec_natDecimalAux : ∀ fuel n, n ≤ fuel → parseDec (natDecimalAux fuel n) = n := by
  intro fuel
  induction fuel with
  | zero =>
      intro n h
      have h0 : n = 0 := Nat.le_zero.mp h
      subst h0
      rfl
  | succ f ih =>
      intro n h
      cases n with
      | zero => rfl
      | succ m =>
          have hdiv : (m + 1) / 10 ≤ f := by
            have hlt : (m + 1) / 10 < m + 1 := Nat.div_lt_self (Nat.succ_pos m) (by omega)
            omega
          have hmod : (m + 1) % 10 < 10 := Nat.mod_lt _ (by omega)
          calc parseDec (natDecimalAux (f + 1) (m + 1))
              = parseDec (natDecimalAux f ((m + 1) / 10) ++ [Nat.digitChar ((m + 1) % 10)]) := rfl
            _ = parseDec (natDecimalAux f ((m + 1) / 10)) * 10
                  + digitVal (Nat.digitChar ((m + 1) % 10)) := parseDec_append_digit _ _
            _ = (m + 1) / 10 * 10 + (m + 1) % 10 := by
                  rw [ih _ hdiv, digitVal_digitChar _ hmod]
            _ = m + 1 := by
                  have h10 := Nat.div_add_mod (m + 1) 10
                  omega

theorem parseDec_natDecimal (n : Nat) : parseDec (natDecimal n).data = n := by
  by_cases h : n = 0
  · subst h
    rfl
  · unfold natDecimal
    rw [if_neg h]
    exact parseDec_natDecimalAux n n (Nat.le_refl n)

theorem tempIdString_inj {m n : Nat} (h : tempIdString m = tempIdString n) : m = n := by
  have h2 := congrArg String.data h
  simp only [tempIdString, String.data_append] at h2
  have h3 : (natDecimal m).data = (natDecimal n).data := by simpa using h2
  have h4 := congrArg parseDec h3
  rwa [parseDec_natDecimal, parseDec_natDecimal] at h4

/-- C4.  The claim fails on the code: with the archive `featured` registered
and the server answering successfully, the `fetchArchive` thunk does
dispatch `archiveStart` and then `archiveSuccess` with the key and the raw
results, but its value is `undefined`, not a promise resolving with the key
— the source never returns the `this.fetch(...)` promise chain (unlike
`fetchSingle`, `updateSingle` and `createSingle`), so the `return id` in its
success handler is unobservable. -/
theorem fetchArchive_thunk_returns_undefined :
    fetchArchiveRun ⟨[(.str ("featured"), 0)], true, 0⟩ (.str ("featured")) (.ok [⟨.num 1, 0⟩]) =
      ([.archiveStart (.str ("featured")), .archiveSuccess (.str ("featured")) [⟨.num 1, 0⟩]],
        .ok .undefined) := by
  decide

/-- C5 counterexample.  `updateSingle` does not raise exactly when the input
lacks an `id` field: the payload with `id` equal to the number 0 has the
field, yet the falsy-test `! id` makes the thunk throw the missing-id error
(and dispatch nothing). -/
theorem updateSingle_raises_on_present_zero_id :
    Post.id ⟨.num 0, 0⟩ ≠ JsVal.undefined ∧
    updateSingleRun ⟨[], true, 0⟩ ⟨.num 0, 0⟩ (.ok ⟨.num 0, 0⟩) = ([], .error .missingId) := by
  decide

/-- C5 as amended.  Configuration errors are synchronous and precede every
dispatch, for any `rethrow` setting: `fetchArchive` throws the
invalid-archive error, with no action dispatched, exactly on unregistered
keys (on registered keys it runs, dispatching `archiveStart` first); and
`updateSingle` throws the missing-id error, with no action dispatched,
exactly when the payload's `id` is falsy (absent, `0`, the empty string,
`false` or `null`) — not merely when the field is absent. -/
theorem config_errors_sync_before_dispatch (h : Handler) (k : JsVal) (data : Post)
    (respA : Except Unit (List Post)) (respU : Except Unit Post) :
    ((objGet h.archives k).isNone = true →
      fetchArchiveRun h k respA = ([], .error (.invalidArchive k))) ∧
    ((objGet h.archives k).isNone = false →
      ∃ acts r, fetchArchiveRun h k respA = (acts, .ok r) ∧
        acts.head? = some (.archiveStart k)) ∧
    (updateSingleRun h data respU = ([], .error .missingId) ↔ jsFalsy data.id = true) := by
  refine ⟨?_, ?_, ?_⟩
  · intro hk
    simp [fetchArchiveRun, hk]
  · intro hk
    cases respA with
    | ok results =>
        refine ⟨[.archiveStart k, .archiveSuccess k results], .undefined, ?_, rfl⟩
        simp [fetchArchiveRun, hk]
    | error e =>
        refine ⟨[.archiveStart k, .archiveError k], .undefined, ?_, rfl⟩
        simp [fetchArchiveRun, hk]
  · constructor
    · intro he
      cases hjf : jsFalsy data.id with
      | true => rfl
      | false =>
          simp only [updateSingleRun, hjf, if_false] at he
          cases respU <;> simp_all
    · intro hf
      simp [updateSingleRun, hf]

/-- C5 witness: on a handler with no registered archives, fetching the key
`featured` throws the invalid-archive configuration error and dispatches
nothing. -/
theorem config_errors_sync_before_dispatch_witness :
    fetchArchiveRun ⟨[], true, 0⟩ (.str ("featured")) (.ok []) =
      ([], .error (.invalidArchive (.str ("featured")))) :=
  (config_errors_sync_before_dispatch ⟨[], true, 0⟩ (.str ("featured")) ⟨.num 1, 0⟩
    (.ok []) (.ok ⟨.num 1, 0⟩)).1 (by decide)

/-- C8.  Temp ids within one handler instance: every `createSingle` run
increments the counter by one (so successive allocations use strictly
increasing counter values), the allocated id — carried by the `createStart`
dispatch — is the temp prefix applied to the current counter value, ids
from distinct counter values never coincide, the `createStart` transition
leaves `posts` untouched (the temp id is tracked only in `saving`), and the
`createSuccess` transition inserts only the server-assigned entity, so no
temp-prefixed entity remains in `posts`. -/
theorem createSingle_temp_ids (h : Handler) (data serverData : Post)
    (resp : Except Unit Post) (s : Substate) (ps : List Post)
    (hposts : s.posts = .list ps)
    (hnotmp : ps.all (fun p => !isTmpVal p.id) = true)
    (hsrv : isTmpVal serverData.id = false) :
    ((createSingleRun h data resp).1.tempId = h.tempId + 1) ∧
    ((createSingleRun h data resp).2.1.head? =
      some (.createStart (.str (tempIdString h.tempId)) data)) ∧
    (∀ m n : Nat, m ≠ n → tempIdString m ≠ tempIdString n) ∧
    (∀ (i : JsVal) (d : Post) (st : Substate),
      reducer st (.createStart i d) = .ok { st with saving := i }) ∧
    (∃ ps', reducer s (.createSuccess (.str (tempIdString h.tempId)) serverData) =
        .ok { s with saving := .bool false, posts := .list ps' } ∧
      ps'.all (fun p => !isTmpVal p.id) = true) := by
  refine ⟨?_, ?_, ?_, ?_, ?_⟩
  · cases resp <;> rfl
  · cases resp <;> rfl
  · intro m n hmn heq
    exact hmn (tempIdString_inj heq)
  · intro i d st
    rfl
  · refine ⟨ps.filter (fun p => decide (p.id ≠ serverData.id)) ++ [serverData], ?_, ?_⟩
    · simp only [reducer, hposts, postsForFilter]
      rfl
    · simp only [List.all_eq_true] at hnotmp ⊢
      intro p hp
      rcases List.mem_append.mp hp with hp1 | hp2
      · exact hnotmp p (List.mem_filter.mp hp1).1
      · have hps : p = serverData := by simpa using hp2
        subst hps
        simp [hsrv]

/-- C8 witness: creating against a fresh handler (counter 0) on the empty
substate, with the server assigning id 42. -/
theorem createSingle_temp_ids_witness :
    (createSingleRun ⟨[], true, 0⟩ ⟨.undefined, 7⟩ (.ok ⟨.num 42, 7⟩)).1.tempId = 0 + 1 :=
  (createSingle_temp_ids ⟨[], true, 0⟩ ⟨.undefined, 7⟩ ⟨.num 42, 7⟩ (.ok ⟨.num 42, 7⟩)
    { DEFAULT_STATE with posts := .list [] } [] rfl (by decide) (by decide)).1

theorem reducer_archiveSuccess_eq (s : Substate) (ps : List Post) (hposts : s.posts = .list ps)
    (id : JsVal) (results : List Post) :
    reducer s (.archiveSuccess id results) =
      .ok { s with
        loadingArchive := .bool false
        archives := objSet s.archives id (results.map (fun post => post.id))
        posts := .list (ps.filter
          (fun post => decide (post.id ∉ results.map (fun post => post.id))) ++ results) } := by
  simp only [reducer, hposts, postsForFilter]
  rfl

theorem reducer_getSuccess_eq (s : Substate) (ps : List Post) (hposts : s.posts = .list ps)
    (id : JsVal) (data : Post) :
    reducer s (.getSuccess id data) =
      .ok { s with
        loadingPost := .bool false
        posts := .list (ps.filter (fun post => decide (post.id ≠ data.id)) ++ [data]) } := by
  simp only [reducer, hposts, postsForFilter]
  rfl

theorem reducer_createSuccess_eq (s : Substate) (ps : List Post) (hposts : s.posts = .list ps)
    (id : JsVal) (data : Post) :
    reducer s (.createSuccess id data) =
      .ok { s with
        saving := .bool false
        posts := .list (ps.filter (fun post => decide (post.id ≠ data.id)) ++ [data]) } := by
  simp only [reducer, hposts, postsForFilter]
  rfl

theorem reducer_updateSuccess_eq (s : Substate) (ps : List Post) (hposts : s.posts = .list ps)
    (id : JsVal) (data : Post) :
    reducer s (.updateSuccess id data) =
      .ok { s with
        saving := .bool false
        posts := .list (ps.filter (fun post => decide (post.id ≠ data.id)) ++ [data]) } := by
  simp only [reducer, hposts, postsForFilter]
  rfl

theorem dedup_replay (ps results : List Post) :
    ((ps.filter (fun post => decide (post.id ∉ results.map (fun post => post.id))) ++ results).filter
        (fun post => decide (post.id ∉ results.map (fun post => post.id)))) ++ results =
      ps.filter (fun post => decide (post.id ∉ results.map (fun post => post.id))) ++ results := by
  rw [List.filter_append]
  have h1 : (ps.filter (fun post => decide (post.id ∉ results.map (fun post => post.id)))).filter
      (fun post => decide (post.id ∉ results.map (fun post => post.id)))
      = ps.filter (fun post => decide (post.id ∉ results.map (fun post => post.id))) := by
    rw [List.filter_filter]
    simp
  have h2 : results.filter (fun post => decide (post.id ∉ results.map (fun post => post.id))) = [] := by
    rw [List.filter_eq_nil_iff]
    intro p hp
    simp only [decide_eq_true_eq, Decidable.not_not]
    exact List.mem_map.mpr ⟨p, hp, rfl⟩
  rw [h1, h2, List.append_nil]

theorem single_replay (ps : List Post) (d : Post) :
    ((ps.filter (fun post => decide (post.id ≠ d.id)) ++ [d]).filter
        (fun post => decide (post.id ≠ d.id))) ++ [d] =
      ps.filter (fun post => decide (post.id ≠ d.id)) ++ [d] := by
  rw [List.filter_append]
  have h1 : (ps.filter (fun post => decide (post.id ≠ d.id))).filter
      (fun post => decide (post.id ≠ d.id)) = ps.filter (fun post => decide (post.id ≠ d.id)) := by
    rw [List.filter_filter]
    simp
  have h2 : ([d].filter (fun post => decide (post.id ≠ d.id))) = [] := by simp
  rw [h1, h2, List.append_nil]

theorem nodup_dedup_append (ps results : List Post)
    (hnd : (postIds ps).Nodup) (hres : (postIds results).Nodup) :
    (postIds (ps.filter (fun post => decide (post.id ∉ results.map (fun post => post.id)))
      ++ results)).Nodup := by
  simp only [postIds, List.map_append] at *
  rw [List.nodup_append]
  refine ⟨((List.filter_sublist ps).map _).nodup hnd, hres, ?_⟩
  intro x hx1 hx2
  rcases List.mem_map.mp hx1 with ⟨p, hp, rfl⟩
  have hpf := (List.mem_filter.mp hp).2
  simp only [decide_eq_true_eq] at hpf
  exact hpf hx2

theorem nodup_single_append (ps : List Post) (d : Post) (hnd : (postIds ps).Nodup) :
    (postIds (ps.filter (fun post => decide (post.id ≠ d.id)) ++ [d])).Nodup := by
  simp only [postIds, List.map_append] at *
  rw [List.nodup_append]
  refine ⟨((List.filter_sublist ps).map _).nodup hnd, List.nodup_singleton _, ?_⟩
  intro x hx1 hx2
  rcases List.mem_map.mp hx1 with ⟨p, hp, rfl⟩
  have hpf := (List.mem_filter.mp hp).2
  simp only [decide_eq_true_eq] at hpf
  have hx : p.id = d.id := by simpa using hx2
  exact hpf hx

theorem getArchive_nodup (s : Substate) (ps : List Post) (hposts : s.posts = .list ps)
    (hnd : (postIds ps).Nodup) (k : JsVal) (l : List Post)
    (h : getArchive s k = .ok (some l)) : (postIds l).Nodup := by
  simp only [getArchive, hposts, PostsVal.truthy] at h
  cases hg : objGet s.archives k with
  | none => rw [hg] at h; simp at h
  | some ids =>
      rw [hg] at h
      simp at h
      subst h
      simp only [postIds]
      exact ((List.filter_sublist ps).map _).nodup (by simpa [postIds] using hnd)

/-- C6 counterexample.  From a substate whose `posts` list is empty (so it
trivially has at most one entry per id), an `archiveSuccess` whose results
carry the same id twice produces a `posts` list with a duplicated id: the
dedup-by-id only removes pre-existing entries, not duplicates inside the
incoming results. -/
theorem archiveSuccess_duplicate_results_break_nodup :
    (postIds ([] : List Post)).Nodup ∧
    reducer { DEFAULT_STATE with posts := .list [] }
        (.archiveSuccess (.str ("k")) [⟨.num 1, 0⟩, ⟨.num 1, 1⟩]) =
      .ok { DEFAULT_STATE with
            loadingArchive := .bool false
            archives := [(.str ("k"), [.num 1, .num 1])]
            posts := .list [⟨.num 1, 0⟩, ⟨.num 1, 1⟩] } ∧
    ¬ (postIds [⟨.num 1, 0⟩, ⟨.num 1, 1⟩]).Nodup := by
  decide

/-- C6 as amended.  For every substate whose `posts` is an entity list with
at most one entry per id, every reducer transition whose `archiveSuccess`
results (if any) are themselves free of duplicate ids succeeds and preserves
the invariant — each insert first removes pre-existing entries with the same
id — and consequently `getArchive` answers on the resulting substate contain
no duplicate ids. -/
theorem reducer_preserves_nodup (s : Substate) (ps : List Post) (a : Action)
    (hposts : s.posts = .list ps) (hnd : (postIds ps).Nodup) (hres : resultsNodup a) :
    ∃ s' ps', reducer s a = .ok s' ∧ s'.posts = .list ps' ∧ (postIds ps').Nodup ∧
      ∀ k l, getArchive s' k = .ok (some l) → (postIds l).Nodup := by
  cases a with
  | archiveStart id =>
      exact ⟨_, ps, rfl, hposts, hnd, fun k l h => getArchive_nodup _ ps hposts hnd k l h⟩
  | archiveSuccess id results =>
      have hres' : (postIds results).Nodup := hres
      have hnd' := nodup_dedup_append ps results hnd hres'
      exact ⟨_, _, reducer_archiveSuccess_eq s ps hposts id results, rfl, hnd',
        fun k l h => getArchive_nodup _ _ rfl hnd' k l h⟩
  | archiveError id =>
      exact ⟨_, ps, rfl, hposts, hnd, fun k l h => getArchive_nodup _ ps hposts hnd k l h⟩
  | getStart id =>
      exact ⟨_, ps, rfl, hposts, hnd, fun k l h => getArchive_nodup _ ps hposts hnd k l h⟩
  | getSuccess id data =>
      have hnd' := nodup_single_append ps data hnd
      exact ⟨_, _, reducer_getSuccess_eq s ps hposts id data, rfl, hnd',
        fun k l h => getArchive_nodup _ _ rfl hnd' k l h⟩
  | getError id =>
      exact ⟨_, ps, rfl, hposts, hnd, fun k l h => getArchive_nodup _ ps hposts hnd k l h⟩
  | updateStart id data =>
      exact ⟨_, ps, rfl, hposts, hnd, fun k l h => getArchive_nodup _ ps hposts hnd k l h⟩
  | updateSuccess id data =>
      have hnd' := nodup_single_append ps data hnd
      exact ⟨_, _, reducer_updateSuccess_eq s ps hposts id data, rfl, hnd',
        fun k l h => getArchive_nodup _ _ rfl hnd' k l h⟩
  | updateError id =>
      exact ⟨_, ps, rfl, hposts, hnd, fun k l h => getArchive_nodup _ ps hposts hnd k l h⟩
  | createStart id data =>
      exact ⟨_, ps, rfl, hposts, hnd, fun k l h => getArchive_nodup _ ps hposts hnd k l h⟩
  | createSuccess id data =>
      have hnd' := nodup_single_append ps data hnd
      exact ⟨_, _, reducer_createSuccess_eq s ps hposts id data, rfl, hnd',
        fun k l h => getArchive_nodup _ _ rfl hnd' k l h⟩
  | createError id =>
      exact ⟨_, ps, rfl, hposts, hnd, fun k l h => getArchive_nodup _ ps hposts hnd k l h⟩
  | unknown =>
      exact ⟨_, ps, rfl, hposts, hnd, fun k l h => getArchive_nodup _ ps hposts hnd k l h⟩

/-- C6 witness: the empty list of posts, an `archiveSuccess` for the key
`featured` with two distinct result ids. -/
theorem reducer_preserves_nodup_witness :
    ∃ s' ps', reducer { DEFAULT_STATE with posts := .list [] }
        (.archiveSuccess (.str ("featured")) [⟨.num 1, 0⟩, ⟨.num 2, 0⟩]) = .ok s' ∧
      s'.posts = .list ps' ∧ (postIds ps').Nodup ∧
      ∀ k l, getArchive s' k = .ok (some l) → (postIds l).Nodup :=
  reducer_preserves_nodup { DEFAULT_STATE with posts := .list [] } [] _
    rfl (by decide) (show (postIds [⟨.num 1, 0⟩, ⟨.num 2, 0⟩]).Nodup by decide)

/-- C7.  On every substate whose `posts` is an entity list, replaying any
`*Success` action is idempotent: the second application succeeds and leaves
the `posts` member exactly as after the first, because the dedup-by-id strips
the previously inserted copies before re-appending them. -/
theorem reducer_replay_idempotent (s : Substate) (ps : List Post) (a : Action)
    (hposts : s.posts = .list ps) (ha : isSuccessAction a = true) :
    ∃ s₁ s₂, reducer s a = .ok s₁ ∧ reducer s₁ a = .ok s₂ ∧ s₂.posts = s₁.posts := by
  cases a with
  | archiveSuccess id results =>
      exact ⟨_, _, reducer_archiveSuccess_eq s ps hposts id results,
        reducer_archiveSuccess_eq _ _ rfl id results,
        congrArg PostsVal.list (dedup_replay ps results)⟩
  | getSuccess id data =>
      exact ⟨_, _, reducer_getSuccess_eq s ps hposts id data,
        reducer_getSuccess_eq _ _ rfl id data,
        congrArg PostsVal.list (single_replay ps data)⟩
  | createSuccess id data =>
      exact ⟨_, _, reducer_createSuccess_eq s ps hposts id data,
        reducer_createSuccess_eq _ _ rfl id data,
        congrArg PostsVal.list (single_replay ps data)⟩
  | updateSuccess id data =>
      exact ⟨_, _, reducer_updateSuccess_eq s ps hposts id data,
        reducer_updateSuccess_eq _ _ rfl id data,
        congrArg PostsVal.list (single_replay ps data)⟩
  | archiveStart id => exact Bool.noConfusion ha
  | archiveError id => exact Bool.noConfusion ha
  | getStart id => exact Bool.noConfusion ha
  | getError id => exact Bool.noConfusion ha
  | updateStart id data => exact Bool.noConfusion ha
  | updateError id => exact Bool.noConfusion ha
  | createStart id data => exact Bool.noConfusion ha
  | createError id => exact Bool.noConfusion ha
  | unknown => exact Bool.noConfusion ha

/-- C7 witness: a one-entity posts list, replaying a `getSuccess` that
replaces that entity. -/
theorem reducer_replay_idempotent_witness :
    ∃ s₁ s₂, reducer { DEFAULT_STATE with posts := .list [⟨.num 5, 0⟩] }
        (.getSuccess (.num 5) ⟨.num 5, 1⟩) = .ok s₁ ∧
      reducer s₁ (.getSuccess (.num 5) ⟨.num 5, 1⟩) = .ok s₂ ∧ s₂.posts = s₁.posts :=
  reducer_replay_idempotent { DEFAULT_STATE with posts := .list [⟨.num 5, 0⟩] }
    [⟨.num 5, 0⟩] _ rfl rfl

theorem str_append_left_cancel {v x y : String} (h : v ++ x = v ++ y) : x = y := by
  have h2 := congrArg String.data h
  simp only [String.data_append] at h2
  exact String.ext (List.append_cancel_left h2)

theorem str_append_right_cancel {x u1 u2 : String} (h : u1 ++ x = u2 ++ x) : u1 = u2 := by
  have h2 := congrArg String.data h
  simp only [String.data_append] at h2
  exact String.ext (List.append_cancel_right h2)

theorem str_append_empty (s : String) : s ++ ("") = s := by
  apply String.ext
  simp [String.data_append]

theorem verb_ne_head (a b : String) (c d : Char) (hc : a.data.head? = some c)
    (hd : b.data.head? = some d) (hcd : c ≠ d) {x y : String} (h : a ++ x = b ++ y) : False := by
  have h2 := congrArg String.data h
  simp only [String.data_append] at h2
  cases ha : a.data with
  | nil => rw [ha] at hc; cases hc
  | cons ca la =>
      cases hb : b.data with
      | nil => rw [hb] at hd; cases hd
      | cons cb lb =>
          rw [ha] at hc h2
          rw [hb] at hd h2
          simp only [List.head?_cons, Option.some.injEq] at hc hd
          simp only [List.cons_append, List.cons.injEq] at h2
          subst hc
          subst hd
          exact hcd h2.1

theorem req_ne_err (u1 u2 : String) : u1 ++ ("_REQUEST") ≠ u2 ++ ("_ERROR") := by
  intro h
  have h2 := congrArg String.data h
  simp only [String.data_append] at h2
  have h3 := congrArg List.getLast? h2
  rw [List.getLast?_append_of_ne_nil _ (by decide),
    List.getLast?_append_of_ne_nil _ (by decide)] at h3
  exact absurd h3 (by decide)

theorem mkTag_eq_cases {v1 v2 : VerbKind} {p1 p2 : PhaseKind} {u1 u2 : String}
    (h : mkTag v1 u1 p1 = mkTag v2 u2 p2) :
    u1 = u2 ∨ u1 = u2 ++ ("_REQUEST") ∨ u1 = u2 ++ ("_ERROR") ∨
      u2 = u1 ++ ("_REQUEST") ∨ u2 = u1 ++ ("_ERROR") := by
  have hv : v1 = v2 := by
    cases v1 <;> cases v2 <;>
      first
        | rfl
        | exact (verb_ne_head (verbTag .vquery) (verbTag .vload) 'Q' 'L' rfl rfl (by decide) h).elim
        | exact (verb_ne_head (verbTag .vquery) (verbTag .vupdate) 'Q' 'U' rfl rfl (by decide) h).elim
        | exact (verb_ne_head (verbTag .vquery) (verbTag .vcreate) 'Q' 'C' rfl rfl (by decide) h).elim
        | exact (verb_ne_head (verbTag .vload) (verbTag .vquery) 'L' 'Q' rfl rfl (by decide) h).elim
        | exact (verb_ne_head (verbTag .vload) (verbTag .vupdate) 'L' 'U' rfl rfl (by decide) h).elim
        | exact (verb_ne_head (verbTag .vload) (verbTag .vcreate) 'L' 'C' rfl rfl (by decide) h).elim
        | exact (verb_ne_head (verbTag .vupdate) (verbTag .vquery) 'U' 'Q' rfl rfl (by decide) h).elim
        | exact (verb_ne_head (verbTag .vupdate) (verbTag .vload) 'U' 'L' rfl rfl (by decide) h).elim
        | exact (verb_ne_head (verbTag .vupdate) (verbTag .vcreate) 'U' 'C' rfl rfl (by decide) h).elim
        | exact (verb_ne_head (verbTag .vcreate) (verbTag .vquery) 'C' 'Q' rfl rfl (by decide) h).elim
        | exact (verb_ne_head (verbTag .vcreate) (verbTag .vload) 'C' 'L' rfl rfl (by decide) h).elim
        | exact (verb_ne_head (verbTag .vcreate) (verbTag .vupdate) 'C' 'U' rfl rfl (by decide) h).elim
  subst hv
  have hcore : u1 ++ phaseTag p1 = u2 ++ phaseTag p2 := str_append_left_cancel h
  cases p1 <;> cases p2 <;> simp only [phaseTag, str_append_empty] at hcore
  · exact Or.inl (str_append_right_cancel hcore)
  · exact Or.inr (Or.inr (Or.inr (Or.inl hcore.symm)))
  · exact (req_ne_err _ _ hcore).elim
  · exact Or.inr (Or.inl hcore)
  · exact Or.inl hcore
  · exact Or.inr (Or.inr (Or.inl hcore))
  · exact (req_ne_err _ _ hcore.symm).elim
  · exact Or.inr (Or.inr (Or.inr (Or.inr hcore.symm)))
  · exact Or.inl (str_append_right_cancel hcore)

/-- Sanity check of the derivation at a concrete resource-type name: the
twelve tags of `post` are exactly the source's template strings. -/
theorem deriveActionTypes_post_strings :
    deriveActionTypes ("post") =
      { archiveStart := ("QUERY_POST_REQUEST")
        archiveSuccess := ("QUERY_POST")
        archiveError := ("QUERY_POST_ERROR")
        getStart := ("LOAD_POST_REQUEST")
        getSuccess := ("LOAD_POST")
        getError := ("LOAD_POST_ERROR")
        updateStart := ("UPDATE_POST_REQUEST")
        updateSuccess := ("UPDATE_POST")
        updateError := ("UPDATE_POST_ERROR")
        createStart := ("CREATE_POST_REQUEST")
        createSuccess := ("CREATE_POST")
        createError := ("CREATE_POST_ERROR") } := by
  decide

/-- C9 counterexample.  The derivation is not collision-free across every
pair of distinct resource-type names: the distinct names `post` and `POST`
uppercase to the same string and derive identical action types; and even
with distinct uppercased names, `X` and `X_REQUEST` collide — the
`archiveStart` tag of `X` equals the `archiveSuccess` tag of `X_REQUEST`. -/
theorem deriveActionTypes_collisions :
    (("post") ≠ ("POST") ∧ deriveActionTypes ("post") = deriveActionTypes ("POST")) ∧
    (("X") ≠ ("X_REQUEST") ∧ jsToUpperCase ("X") ≠ jsToUpperCase ("X_REQUEST") ∧
      (deriveActionTypes ("X")).archiveStart =
        (deriveActionTypes ("X_REQUEST")).archiveSuccess) := by
  decide

/-- C9 as amended.  The derivation of the twelve action-type strings is a
function of the resource-type name (hence deterministic), and it is
collision-free across two handlers whenever the two uppercased names are
distinct and neither equals the other followed by `_REQUEST` or `_ERROR`:
no derived tag of one handler occurs among the tags of the other. -/
theorem deriveActionTypes_disjoint (ty1 ty2 : String)
    (h1 : jsToUpperCase ty1 ≠ jsToUpperCase ty2)
    (h2 : jsToUpperCase ty1 ≠ jsToUpperCase ty2 ++ ("_REQUEST"))
    (h3 : jsToUpperCase ty1 ≠ jsToUpperCase ty2 ++ ("_ERROR"))
    (h4 : jsToUpperCase ty2 ≠ jsToUpperCase ty1 ++ ("_REQUEST"))
    (h5 : jsToUpperCase ty2 ≠ jsToUpperCase ty1 ++ ("_ERROR")) :
    ∀ s ∈ actionTypeList (deriveActionTypes ty1), s ∉ actionTypeList (deriveActionTypes ty2) := by
  intro s hs ht
  simp only [actionTypeList, deriveActionTypes, List.mem_cons, List.not_mem_nil, or_false] at hs ht
  rcases hs with rfl | rfl | rfl | rfl | rfl | rfl | rfl | rfl | rfl | rfl | rfl | rfl <;>
    rcases ht with h | h | h | h | h | h | h | h | h | h | h | h <;>
    rcases mkTag_eq_cases h with hu | hu | hu | hu | hu <;>
    first
      | exact h1 hu
      | exact h2 hu
      | exact h3 hu
      | exact h4 hu
      | exact h5 hu

/-- C9 witness: the handlers for `post` and `page` share no action type; in
particular the `archiveStart` tag of `post` is not among the tags of
`page`. -/
theorem deriveActionTypes_disjoint_witness :
    (deriveActionTypes ("post")).archiveStart ∉ actionTypeList (deriveActionTypes ("page")) :=
  deriveActionTypes_disjoint ("post") ("page")
    (by decide) (by decide) (by decide) (by decide) (by decide)
    (deriveActionTypes ("post")).archiveStart (by decide)

end BrokerTheme
